import Mathlib

/-!
Shallow embedding of `src/app.py` (github-user-stat-fetcher).

The Python program is a Flask app whose contribution pipeline is
`fetch_github_data` (HTTP fetch with an `lru_cache` memo),
`parse_contribution_data` (BeautifulSoup scrape of the contribution
calendar), `calculate_statistics` and `calculate_longest_streak`.

Embedding conventions:
* The HTML soup is abstracted to the document-query view the parser uses:
  the ordered list of `<td class="ContributionCalendar-day">` elements
  (each with its `data-date`, `id` and `data-level` attributes) and the
  ordered list of `<tool-tip>` elements (each with its `for` attribute and
  text).  `td.get(attr)` becomes an `Option String` field.
* `datetime.now().date()` is passed in explicitly as the `now : Date`
  argument of `parse_contribution_data`.
* Python exceptions (`ValueError` from `strptime`/`int`, `KeyError` from
  the color table) become `Except String` results: any raised exception
  aborts the whole parse, exactly as an uncaught exception does.
* Python `list.sort(key=...)` is a stable sort by key; it is modelled by a
  structurally recursive stable insertion sort on the date string, compared
  lexicographically by code point exactly as Python compares `str`.
* `float` results (`mean` rounded by `round(x, 2)`, `median`) are modelled
  as exact rationals with round-half-to-even; no claim depends on them.
* machine integers do not occur: Python ints are unbounded, counts are
  regex-extracted digits (`Nat`), levels are `int(...)` results (`Int`).
-/

namespace GhStats

/-- Code-point lexicographic `<=` on strings viewed as char lists; this is
exactly how Python compares `str` values (the sort key of the parser). -/
def lexLe : List Char → List Char → Bool
  | [], _ => true
  | _ :: _, [] => false
  | a :: as, b :: bs =>
    if a.toNat < b.toNat then true
    else if b.toNat < a.toNat then false
    else lexLe as bs

/-- Numeric value of a digit run, as Python `int()` reads it. -/
def natOfDigits (cs : List Char) : Nat :=
  cs.foldl (fun n c => n * 10 + (c.toNat - 48)) 0

def allDigits (cs : List Char) : Bool := cs.all Char.isDigit

/-- Python `str.strip()` on both ends (whitespace per `Char.isWhitespace`,
which covers the ASCII whitespace appearing in tooltip text). -/
def pyStrip (s : String) : String :=
  ⟨((s.data.dropWhile Char.isWhitespace).reverse.dropWhile Char.isWhitespace).reverse⟩

/-- Leading-match test: does `text` start with `pat`? -/
def leadMatch : List Char → List Char → Bool
  | [], _ => true
  | _ :: _, [] => false
  | p :: ps, t :: ts => p == t && leadMatch ps ts

/-- Model of `re.search` with pattern digits-then-" contribution(s)": leftmost digit run that is
immediately followed by the literal text " contribution"; returns the run's
numeric value (`int(match.group(1))`).  A shorter (backtracked) prefix of a
digit run can never match because the next char would be a digit, not a
space, so leftmost-greedy regex search coincides with this scan. -/
def findCount : List Char → Option Nat
  | [] => none
  | c :: cs =>
    if c.isDigit then
      let ds := (c :: cs).takeWhile Char.isDigit
      let rest := (c :: cs).dropWhile Char.isDigit
      if leadMatch " contribution".data rest then some (natOfDigits ds)
      else findCount cs
    else findCount cs

/-- Python `int(s)` on a string: strip whitespace, optional sign, one or
more digits; `none` models the `ValueError` raised otherwise. -/
def pyInt (s : String) : Option Int :=
  match (pyStrip s).data with
  | '-' :: rest =>
    if rest ≠ [] ∧ allDigits rest = true then some (-(natOfDigits rest : Int)) else none
  | '+' :: rest =>
    if rest ≠ [] ∧ allDigits rest = true then some ((natOfDigits rest : Int)) else none
  | cs =>
    if cs ≠ [] ∧ allDigits cs = true then some ((natOfDigits cs : Int)) else none

/-- A `datetime.date`: year, month, day. -/
structure Date where
  year : Nat
  month : Nat
  day : Nat
  deriving DecidableEq, Repr

/-- Python `date <= date` (lexicographic on year, month, day). -/
def dleB (a b : Date) : Bool :=
  decide (a.year < b.year) ||
    (decide (a.year = b.year) &&
      (decide (a.month < b.month) ||
        (decide (a.month = b.month) && decide (a.day ≤ b.day))))

/-- Python `date < date`. -/
def dltB (a b : Date) : Bool := !(dleB b a)

def isLeap (y : Nat) : Bool := (y % 4 == 0 && y % 100 != 0) || y % 400 == 0

def daysInMonth (y m : Nat) : Nat :=
  if m = 2 then (if isLeap y then 29 else 28)
  else if m = 4 ∨ m = 6 ∨ m = 9 ∨ m = 11 then 30
  else 31

/-- Split a char list on `'-'` separators (for the `%Y-%m-%d` format). -/
def splitDash : List Char → List (List Char)
  | [] => [[]]
  | c :: cs =>
    let r := splitDash cs
    if c == '-' then [] :: r
    else
      match r with
      | [] => [[c]]
      | g :: gs => (c :: g) :: gs

/-- Model of `datetime.strptime(s, '%Y-%m-%d').date()`: CPython's `_strptime` regex
demands exactly four digits for `%Y`, one or two digits valued 1..12 for
`%m`, one or two digits valued 1..31 for `%d`, full consumption of the
string, and the `date` constructor then validates the day against the
month length (and `year >= 1`).  `none` models the raised `ValueError`. -/
def strptimeDate (s : String) : Option Date :=
  match splitDash s.data with
  | [ys, ms, ds] =>
    if ys.length = 4 ∧ allDigits ys = true ∧
        (ms.length = 1 ∨ ms.length = 2) ∧ allDigits ms = true ∧
        (ds.length = 1 ∨ ds.length = 2) ∧ allDigits ds = true then
      let y := natOfDigits ys
      let m := natOfDigits ms
      let d := natOfDigits ds
      if 1 ≤ y ∧ 1 ≤ m ∧ m ≤ 12 ∧ 1 ≤ d ∧ d ≤ daysInMonth y m then
        some ⟨y, m, d⟩
      else none
    else none
  | _ => none

/-- The fixed level→color table `CONTRIBUTION_COLORS`; `none` models the
`KeyError` raised on a level outside 0..4. -/
def CONTRIBUTION_COLORS (level : Int) : Option String :=
  if level = 0 then some "#ebedf0"
  else if level = 1 then some "#9be9a8"
  else if level = 2 then some "#40c463"
  else if level = 3 then some "#30a14e"
  else if level = 4 then some "#216e39"
  else none

/-- One `<td class="ContributionCalendar-day">` element: the three
attributes the parser reads (`td.get` returns `None` for a missing one). -/
structure Td where
  dataDate : Option String
  idAttr : Option String
  dataLevel : Option String
  deriving DecidableEq, Repr

/-- One `<tool-tip>` element: its `for` attribute and its text. -/
structure ToolTip where
  forAttr : Option String
  text : String
  deriving DecidableEq, Repr

/-- The document-query view of the soup: all calendar-day `td`s and all
`tool-tip`s, each in document order. -/
structure Doc where
  tds : List Td
  tooltips : List ToolTip
  deriving DecidableEq, Repr

/-- One parsed contribution dict, with the keys the source builds. -/
structure Rec where
  date : String
  contributions : Nat
  colorCode : String
  description : String
  deriving DecidableEq, Repr

/-- Python-style `<=` on records by their date string (the sort key). -/
def recDateLe (a b : Rec) : Bool := lexLe a.date.data b.date.data

/-- Stable insertion of a record into a date-sorted list: an incoming
record goes in front of the first record whose date is `>=` its own, which
together with `sortRecs`'s right-to-left recursion reproduces the stable
order of Python's `list.sort(key=lambda x: x['date'])`. -/
def insertRec (a : Rec) : List Rec → List Rec
  | [] => [a]
  | b :: l => if recDateLe a b then a :: b :: l else b :: insertRec a l

/-- Stable sort by date string, modelling `contributions.sort(key=...)`. -/
def sortRecs : List Rec → List Rec
  | [] => []
  | a :: l => insertRec a (sortRecs l)

/-- The body of the parser's `for td in soup.find_all(...)` loop for one
`td`, acting on the accumulated `contributions` list.  `Except.error`
models an uncaught Python exception aborting the whole parse:
`strptime` raising `ValueError` on a malformed (non-empty) date string,
`int()` raising on a malformed `data-level`, and the `KeyError` of a
level outside the color table.  Note `if not date` in Python is true both
for a missing attribute (`None`) and for the empty string, so both are
skipped before `strptime` ever runs. -/
def parseTd (doc : Doc) (now : Date) (acc : List Rec) (td : Td) :
    Except String (List Rec) :=
  match td.dataDate with
  | none => .ok acc
  | some date =>
    if date = "" then .ok acc
    else
      match strptimeDate date with
      | none => .error "time data does not match format %Y-%m-%d"
      | some dateObj =>
        if dltB now dateObj then .ok acc
        else
          match doc.tooltips.find? (fun t => t.forAttr == td.idAttr) with
          | none => .ok acc
          | some tooltip =>
            match (match td.dataLevel with
                   | none => some (0 : Int)
                   | some s => pyInt s) with
            | none => .error "invalid literal for int"
            | some level =>
              match CONTRIBUTION_COLORS level with
              | none => .error "KeyError"
              | some color =>
                .ok (acc ++ [{ date := date,
                               contributions := (findCount (pyStrip tooltip.text).data).getD 0,
                               colorCode := color,
                               description := pyStrip tooltip.text }])

/-- The parser's loop over all `td`s, threading the accumulator. -/
def parseTds (doc : Doc) (now : Date) (acc : List Rec) :
    List Td → Except String (List Rec)
  | [] => .ok acc
  | td :: rest =>
    match parseTd doc now acc td with
    | .ok acc2 => parseTds doc now acc2 rest
    | .error e => .error e

/-- Model of `parse_contribution_data(html_content)`: scan the calendar-day cells,
then sort the collected records ascending by date string.  `now` is the
injected `datetime.now().date()`. -/
def parse_contribution_data (now : Date) (doc : Doc) :
    Except String (List Rec) :=
  (parseTds doc now [] doc.tds).map sortRecs

/-- The `{'length': ..., 'end_date': ...}` dict of the streak computation. -/
structure Streak where
  length : Nat
  end_date : Option String
  deriving DecidableEq, Repr

/-- One iteration of `calculate_longest_streak`'s loop.  State is
`(current_streak, longest_streak, streak_end_date)`. -/
def streakStep (s : Nat × Nat × Option String) (r : Rec) :
    Nat × Nat × Option String :=
  if r.contributions > 0 then
    if s.1 + 1 > s.2.1 then (s.1 + 1, s.1 + 1, some r.date)
    else (s.1 + 1, s.2.1, s.2.2)
  else (0, s.2.1, s.2.2)

/-- Model of `calculate_longest_streak(contributions)`. -/
def calculate_longest_streak (l : List Rec) : Streak :=
  let s := l.foldl streakStep (0, 0, none)
  { length := s.2.1, end_date := s.2.2 }

/-- Python `max(contributions, key=lambda x: x['contributions'])`: a left
scan that replaces the best element only on a strictly greater key, so the
first maximal element wins ties. -/
def pyMaxBy (a : Rec) (l : List Rec) : Rec :=
  l.foldl (fun best r => if r.contributions > best.contributions then r else best) a

def insertNat (a : Nat) : List Nat → List Nat
  | [] => [a]
  | b :: l => if a ≤ b then a :: b :: l else b :: insertNat a l

def sortNat : List Nat → List Nat
  | [] => []
  | a :: l => insertNat a (sortNat l)

/-- Model of `statistics.median`: sort, take the middle element, or the average of
the two middle elements for an even length (exact rational model of the
float result). -/
def pyMedian (cs : List Nat) : ℚ :=
  let s := sortNat cs
  let n := s.length
  if n % 2 = 1 then (s.getD (n / 2) 0 : ℚ)
  else ((s.getD (n / 2 - 1) 0 : ℚ) + (s.getD (n / 2) 0 : ℚ)) / 2

/-- Round-half-to-even to an integer, as Python `round` ties-breaks. -/
def roundHalfEven (q : ℚ) : Int :=
  let f : Int := Int.floor q
  if q - f < 1 / 2 then f
  else if 1 / 2 < q - f then f + 1
  else if f % 2 = 0 then f else f + 1

/-- Python `round(x, 2)` modelled exactly on rationals. -/
def roundPy2 (q : ℚ) : ℚ := (roundHalfEven (q * 100) : ℚ) / 100

/-- The statistics dict built by `calculate_statistics` for a non-empty
input.  `average`/`median` are exact-rational models of the float values;
no claim below depends on them. -/
structure Stats where
  total_contributions : Nat
  average_daily_contributions : ℚ
  median_daily_contributions : ℚ
  max_contributions_day : Rec
  streak : Streak
  active_days : Nat
  inactive_days : Nat
  deriving DecidableEq, Repr

/-- Model of `calculate_statistics(contributions)`: `none` models the empty dict
`{}` returned for an empty input (the `if not contributions` guard). -/
def calculate_statistics : List Rec → Option Stats
  | [] => none
  | a :: rest =>
    let counts := (a :: rest).map (fun r => r.contributions)
    some
      { total_contributions := counts.sum
        average_daily_contributions := roundPy2 ((counts.sum : ℚ) / (counts.length : ℚ))
        median_daily_contributions := pyMedian counts
        max_contributions_day := pyMaxBy a rest
        streak := calculate_longest_streak (a :: rest)
        active_days := (counts.filter (fun c => decide (c > 0))).length
        inactive_days := (counts.filter (fun c => decide (c = 0))).length }

/-- An upstream HTTP response, as `fetch_github_data` inspects it. -/
structure HttpResponse where
  status_code : Nat
  text : String
  deriving DecidableEq, Repr

/-- The two `ValueError`s `fetch_github_data` can raise. -/
inductive FetchErr where
  /-- "GitHub user not found" (uptream 404). -/
  | notFound
  /-- "Failed to fetch GitHub data" (any other non-200 status). -/
  | upstreamFailed
  deriving DecidableEq, Repr

/-- The uncached body of `fetch_github_data`, applied to the upstream
response: 404 raises `NotFound`, any other non-200 raises the generic
upstream error, 200 returns the raw body.  (The debug write of
`response.html` is a side effect outside the functional contract.) -/
def fetch_github_data_nocache (resp : HttpResponse) : Except FetchErr String :=
  if resp.status_code = 404 then .error .notFound
  else if resp.status_code ≠ 200 then .error .upstreamFailed
  else .ok resp.text

/-- The memo key of the `lru_cache`: `(username, from_date, to_date)`. -/
abbrev GHKey := String × String × String

/-- Lookup in the modelled memo cache. -/
def cacheLookup (cache : List (GHKey × String)) (k : GHKey) : Option String :=
  (cache.find? (fun p => decide (p.1 = k))).map (fun p => p.2)

/-- Model of the `@lru_cache(maxsize=100)`-wrapped `fetch_github_data`, with
explicit state passing: the cache is an LRU list (most recent first), the
upstream is an oracle from key to response, and the `Bool` component
records whether a network round-trip happened.  On a hit the entry moves
to the front and no request is made; on a miss the request is made, a
successful body is inserted (trimming to 100 entries), and a raised
exception is not cached — exactly `lru_cache`'s behavior. -/
def fetch_github_data (up : GHKey → HttpResponse)
    (cache : List (GHKey × String)) (k : GHKey) :
    Except FetchErr String × List (GHKey × String) × Bool :=
  match cache.find? (fun p => decide (p.1 = k)) with
  | some p => (.ok p.2, (k, p.2) :: cache.filter (fun q => !(decide (q.1 = k))), false)
  | none =>
    match fetch_github_data_nocache (up k) with
    | .ok body => (.ok body, ((k, body) :: cache).take 100, true)
    | .error e => (.error e, cache, true)

/-!
Specification-side definitions for the streak claim: the running
consecutive-positive counter the spec describes, its maximum over the
whole pass, and the date of the record at which that maximum is first
attained (the last record of the first maximal run). -/

/-- The value of the running counter after each record: incremented on a
positive count, reset to `0` on a zero count, starting from `c`. -/
def runCounters (c : Nat) : List Rec → List Nat
  | [] => []
  | r :: rs =>
    let c1 := if r.contributions > 0 then c + 1 else 0
    c1 :: runCounters c1 rs

/-- The maximum value the running counter ever reaches. -/
def maxCounter (l : List Rec) : Nat := (runCounters 0 l).foldr max 0

/-- The date of the record at which the maximum counter value is first
attained; `none` when the maximum is `0` (no positive record at all). -/
def maxCounterDate (l : List Rec) : Option String :=
  if maxCounter l = 0 then none
  else
    ((l.zip (runCounters 0 l)).find? (fun p => p.2 == maxCounter l)).map
      (fun p => p.1.date)

/-! Order lemmas for the code-point lexicographic comparison. -/

theorem lexLe_refl (cs : List Char) : lexLe cs cs = true := by
  induction cs with
  | nil => rfl
  | cons a as ih => simp [lexLe, ih]

theorem lexLe_total (as : List Char) : ∀ bs, lexLe as bs = true ∨ lexLe bs as = true := by
  induction as with
  | nil => intro bs; left; rfl
  | cons a as ih =>
    intro bs
    cases bs with
    | nil => right; rfl
    | cons b bs =>
      rcases Nat.lt_trichotomy a.toNat b.toNat with h | h | h
      · left; simp [lexLe, h]
      · rcases ih bs with h2 | h2
        · left; simp [lexLe, h, h2]
        · right; simp [lexLe, h, h2]
      · right; simp [lexLe, h]

theorem lexLe_trans (as : List Char) : ∀ bs cs, lexLe as bs = true →
    lexLe bs cs = true → lexLe as cs = true := by
  induction as with
  | nil => intro bs cs _ _; rfl
  | cons a as ih =>
    intro bs cs h1 h2
    cases bs with
    | nil => simp [lexLe] at h1
    | cons b bs =>
      cases cs with
      | nil => simp [lexLe] at h2
      | cons c cs =>
        simp only [lexLe] at h1 h2 ⊢
        by_cases hab : a.toNat < b.toNat
        · by_cases hbc : b.toNat < c.toNat
          · have hac : a.toNat < c.toNat := Nat.lt_trans hab hbc
            simp [hac]
          · by_cases hcb : c.toNat < b.toNat
            · simp [hbc, hcb] at h2
            · have hac : a.toNat < c.toNat := by omega
              simp [hac]
        · by_cases hba : b.toNat < a.toNat
          · simp [hab, hba] at h1
          · simp [hab, hba] at h1
            by_cases hbc : b.toNat < c.toNat
            · have hac : a.toNat < c.toNat := by omega
              simp [hac]
            · by_cases hcb : c.toNat < b.toNat
              · simp [hbc, hcb] at h2
              · simp [hbc, hcb] at h2
                have h3 : ¬ a.toNat < c.toNat := by omega
                have h4 : ¬ c.toNat < a.toNat := by omega
                simp [h3, h4]
                exact ih bs cs h1 h2

theorem recDateLe_refl (a : Rec) : recDateLe a a = true := lexLe_refl _

theorem recDateLe_trans {a b c : Rec} (h1 : recDateLe a b = true)
    (h2 : recDateLe b c = true) : recDateLe a c = true :=
  lexLe_trans _ _ _ h1 h2

theorem recDateLe_total (a b : Rec) : recDateLe a b = true ∨ recDateLe b a = true :=
  lexLe_total _ _

/-! Membership and sortedness of the stable insertion sort. -/

theorem mem_insertRec {x a : Rec} {l : List Rec} :
    x ∈ insertRec a l ↔ x = a ∨ x ∈ l := by
  induction l with
  | nil => simp [insertRec]
  | cons b l ih =>
    by_cases h : recDateLe a b
    · simp [insertRec, h, List.mem_cons]
    · simp [insertRec, h, List.mem_cons, ih]
      tauto

theorem mem_sortRecs {x : Rec} {l : List Rec} : x ∈ sortRecs l ↔ x ∈ l := by
  induction l with
  | nil => simp [sortRecs]
  | cons a l ih => simp [sortRecs, mem_insertRec, ih, List.mem_cons]

theorem pairwise_insertRec (a : Rec) (l : List Rec)
    (h : l.Pairwise (fun x y => recDateLe x y = true)) :
    (insertRec a l).Pairwise (fun x y => recDateLe x y = true) := by
  induction l with
  | nil => simp [insertRec]
  | cons b l ih =>
    rcases List.pairwise_cons.mp h with ⟨hb, hl⟩
    by_cases hab : recDateLe a b
    · simp only [insertRec, if_pos hab]
      refine List.pairwise_cons.mpr ⟨?_, h⟩
      intro x hx
      rcases List.mem_cons.mp hx with rfl | hx
      · exact hab
      · exact recDateLe_trans hab (hb x hx)
    · simp only [insertRec, if_neg hab]
      refine List.pairwise_cons.mpr ⟨?_, ih hl⟩
      intro x hx
      rcases mem_insertRec.mp hx with rfl | hx
      · rcases recDateLe_total x b with h1 | h1
        · exact absurd h1 hab
        · exact h1
      · exact hb x hx

theorem pairwise_sortRecs (l : List Rec) :
    (sortRecs l).Pairwise (fun x y => recDateLe x y = true) := by
  induction l with
  | nil => simp [sortRecs]
  | cons a l ih => exact pairwise_insertRec a _ ih

/-- Characterization of the streak fold from an arbitrary legal state
(`current <= longest`): the final longest streak is the old longest
maxed with every value the running counter takes, and the final end date
is the date of the record where the counter first attains that maximum
(unchanged when the old longest is never beaten). -/
theorem foldl_streakStep_char (l : List Rec) :
    ∀ (c b : Nat) (e : Option String), c ≤ b →
      (l.foldl streakStep (c, b, e)).2 =
        (max b ((runCounters c l).foldr max 0),
          if b < (runCounters c l).foldr max 0 then
            ((l.zip (runCounters c l)).find?
              (fun p => p.2 == (runCounters c l).foldr max 0)).map (fun p => p.1.date)
          else e) := by
  induction l with
  | nil =>
    intro c b e hcb
    simp [runCounters]
  | cons r rs ih =>
    intro c b e hcb
    by_cases hp : r.contributions > 0
    · have hrc : runCounters c (r :: rs) = (c + 1) :: runCounters (c + 1) rs := by
        simp [runCounters, hp]
      by_cases hbc : b < c + 1
      · have hstep : streakStep (c, b, e) r = (c + 1, c + 1, some r.date) := by
          simp [streakStep, hp, hbc]
        rw [List.foldl_cons, hstep, ih (c + 1) (c + 1) (some r.date) (le_refl _), hrc]
        simp only [List.zip_cons_cons, List.foldr_cons]
        set M := (runCounters (c + 1) rs).foldr max 0 with hM
        rcases Nat.lt_or_ge (c + 1) M with hlt | hge
        · have hmax : max (c + 1) M = M := by omega
          simp only [hmax]
          rw [if_pos hlt, if_pos (show b < M by omega),
            List.find?_cons_of_neg _ (by simp; omega),
            show max b M = M by omega]
        · have hmax : max (c + 1) M = c + 1 := by omega
          simp only [hmax]
          rw [if_neg (show ¬ c + 1 < M by omega), if_pos (show b < c + 1 from hbc),
            List.find?_cons_of_pos _ (by simp), show max b (c + 1) = c + 1 by omega]
          simp
      · have hstep : streakStep (c, b, e) r = (c + 1, b, e) := by
          simp [streakStep, hp, hbc]
        rw [List.foldl_cons, hstep, ih (c + 1) b e (by omega), hrc]
        simp only [List.zip_cons_cons, List.foldr_cons]
        set M := (runCounters (c + 1) rs).foldr max 0 with hM
        by_cases hbM : b < M
        · have hmax : max (c + 1) M = M := by omega
          simp only [hmax]
          rw [if_pos hbM, if_pos hbM, List.find?_cons_of_neg _ (by simp; omega),
            show max b M = max b M from rfl]
        · rw [if_neg hbM, if_neg (show ¬ b < max (c + 1) M by omega),
            show max b (max (c + 1) M) = max b M by omega]
    · have hrc : runCounters c (r :: rs) = 0 :: runCounters 0 rs := by
        simp [runCounters, hp]
      have hstep : streakStep (c, b, e) r = (0, b, e) := by
        simp [streakStep, hp]
      rw [List.foldl_cons, hstep, ih 0 b e (Nat.zero_le b), hrc]
      simp only [List.zip_cons_cons, List.foldr_cons]
      set M := (runCounters 0 rs).foldr max 0 with hM
      have h0 : max 0 M = M := by omega
      simp only [h0]
      by_cases hbM : b < M
      · rw [if_pos hbM, if_pos hbM, List.find?_cons_of_neg _ (by simp; omega)]
      · rw [if_neg hbM, if_neg hbM]

/-- Claim C1: for every record sequence, the streak statistic equals the
single-forward-pass specification: its length is the maximum value reached
by a running counter of consecutive positive-count records that resets on
any zero-count record, and its end date is the date of the record at which
that maximum is first attained — the last date of the winning run, with
the first of several equal-length runs winning (absent when the maximum
is 0). -/
theorem streak_forward_pass (l : List Rec) :
    calculate_longest_streak l =
      { length := maxCounter l, end_date := maxCounterDate l } := by
  have h := foldl_streakStep_char l 0 0 none (le_refl 0)
  show Streak.mk (l.foldl streakStep (0, 0, none)).2.1
      (l.foldl streakStep (0, 0, none)).2.2 =
    Streak.mk (maxCounter l) (maxCounterDate l)
  rw [h]
  show Streak.mk (max 0 ((runCounters 0 l).foldr max 0)) _ = _
  congr 1
  · show max 0 ((runCounters 0 l).foldr max 0) = maxCounter l
    unfold maxCounter
    omega
  · show (if 0 < (runCounters 0 l).foldr max 0 then
        ((l.zip (runCounters 0 l)).find?
          (fun p => p.2 == (runCounters 0 l).foldr max 0)).map (fun p => p.1.date)
      else none) = maxCounterDate l
    unfold maxCounterDate maxCounter
    by_cases hM : (runCounters 0 l).foldr max 0 = 0
    · simp [hM]
    · rw [if_pos (by omega), if_neg hM]

/-- Every record's count is either positive or zero, so the two filters of
`calculate_statistics` partition the count list. -/
theorem filter_pos_add_filter_zero (cs : List Nat) :
    (cs.filter (fun c => decide (c > 0))).length +
      (cs.filter (fun c => decide (c = 0))).length = cs.length := by
  induction cs with
  | nil => rfl
  | cons c cs ih =>
    by_cases h : c = 0
    · rw [List.filter_cons, List.filter_cons, if_neg (by simp [h]), if_pos (by simp [h])]
      simp only [List.length_cons]
      omega
    · rw [List.filter_cons, List.filter_cons, if_pos (by simp [Nat.pos_of_ne_zero h]),
        if_neg (by simp [h])]
      simp only [List.length_cons]
      omega

/-- Claim C2: for every non-empty record sequence, the reported
`active_days` plus the reported `inactive_days` equals the number of
records. -/
theorem active_plus_inactive_eq_length (l : List Rec) (h : l ≠ []) :
    (calculate_statistics l).map (fun s => s.active_days + s.inactive_days) =
      some l.length := by
  match l, h with
  | a :: rest, _ =>
    show some _ = some _
    rw [Option.some.injEq]
    show ((List.map (fun r => r.contributions) (a :: rest)).filter
        (fun c => decide (c > 0))).length +
      ((List.map (fun r => r.contributions) (a :: rest)).filter
        (fun c => decide (c = 0))).length = (a :: rest).length
    rw [filter_pos_add_filter_zero, List.length_map]

theorem active_plus_inactive_eq_length_witness :
    ([⟨"2024-01-01", 5, "#40c463", "5 contributions"⟩,
      ⟨"2024-01-02", 0, "#ebedf0", "No contributions"⟩] : List Rec) ≠ [] ∧
    (calculate_statistics
      [⟨"2024-01-01", 5, "#40c463", "5 contributions"⟩,
       ⟨"2024-01-02", 0, "#ebedf0", "No contributions"⟩]).map
        (fun s => s.active_days + s.inactive_days) = some 2 :=
  ⟨by simp, active_plus_inactive_eq_length _ (by simp)⟩

/-- Claim C6: the statistics calculator returns the empty/absent summary
on the empty record sequence (no error, no division by zero), and a
populated summary on every non-empty sequence. -/
theorem empty_input_gives_empty_summary :
    calculate_statistics [] = none ∧
    ∀ l : List Rec, l ≠ [] → ∃ s, calculate_statistics l = some s := by
  refine ⟨rfl, ?_⟩
  intro l h
  match l, h with
  | a :: rest, _ => exact ⟨_, rfl⟩

theorem empty_input_gives_empty_summary_witness :
    calculate_statistics [] = none ∧
    ([⟨"2024-01-01", 5, "#40c463", "5 contributions"⟩] : List Rec) ≠ [] ∧
    ∃ s, calculate_statistics [⟨"2024-01-01", 5, "#40c463", "5 contributions"⟩] = some s :=
  ⟨empty_input_gives_empty_summary.1, by simp,
    empty_input_gives_empty_summary.2 _ (by simp)⟩

/-- Claim C8: the fetcher fails with the not-found error exactly on an
upstream 404, fails with the generic upstream error exactly on any other
non-200 response, and returns the raw markup exactly on a 200 response. -/
theorem fetch_error_mapping (resp : HttpResponse) :
    (fetch_github_data_nocache resp = .error .notFound ↔ resp.status_code = 404) ∧
    (fetch_github_data_nocache resp = .error .upstreamFailed ↔
      (resp.status_code ≠ 404 ∧ resp.status_code ≠ 200)) ∧
    (fetch_github_data_nocache resp = .ok resp.text ↔ resp.status_code = 200) := by
  unfold fetch_github_data_nocache
  by_cases h4 : resp.status_code = 404
  · simp [h4]
  · by_cases h2 : resp.status_code = 200
    · simp [h4, h2]
    · simp [h4, h2]

/-- The streak fold never leaves its initial state on an all-zero list. -/
theorem foldl_streakStep_all_zero (l : List Rec)
    (hz : ∀ r ∈ l, r.contributions = 0) :
    l.foldl streakStep (0, 0, none) = (0, 0, none) := by
  induction l with
  | nil => rfl
  | cons r rs ih =>
    have h0 : r.contributions = 0 := hz r (List.mem_cons_self r rs)
    have hstep : streakStep (0, 0, none) r = (0, 0, none) := by
      simp [streakStep, h0]
    rw [List.foldl_cons, hstep]
    exact ih (fun x hx => hz x (List.mem_cons_of_mem r hx))

/-- Claim C9: on a non-empty all-zero record sequence the summary is still
produced, with streak length 0, absent streak end date, total 0, zero
active days and all days inactive. -/
theorem all_zero_records_summary (l : List Rec) (hne : l ≠ [])
    (hz : ∀ r ∈ l, r.contributions = 0) :
    (calculate_statistics l).map (fun s =>
        (s.streak, s.total_contributions, s.active_days, s.inactive_days)) =
      some (⟨0, none⟩, 0, 0, l.length) := by
  match l, hne with
  | a :: rest, _ =>
    show some _ = some _
    rw [Option.some.injEq]
    have hstreak : calculate_longest_streak (a :: rest) = ⟨0, none⟩ := by
      unfold calculate_longest_streak
      rw [foldl_streakStep_all_zero _ hz]
    have hcz : ∀ c ∈ (a :: rest).map (fun r => r.contributions), c = 0 := by
      intro c hc
      rcases List.mem_map.mp hc with ⟨r, hr, rfl⟩
      exact hz r hr
    have htot : ((a :: rest).map (fun r => r.contributions)).sum = 0 :=
      List.sum_eq_zero hcz
    have hact : ((a :: rest).map (fun r => r.contributions)).filter
        (fun c => decide (c > 0)) = [] := by
      rw [List.filter_eq_nil_iff]
      intro c hc
      simp [hcz c hc]
    have hinact : ((a :: rest).map (fun r => r.contributions)).filter
        (fun c => decide (c = 0)) =
        (a :: rest).map (fun r => r.contributions) := by
      rw [List.filter_eq_self]
      intro c hc
      simp [hcz c hc]
    show (calculate_longest_streak (a :: rest), _, _, _) = _
    rw [hstreak, htot, hact, hinact, List.length_map]
    rfl

theorem all_zero_records_summary_witness :
    ([⟨"2024-01-01", 0, "#ebedf0", "No contributions"⟩,
      ⟨"2024-01-02", 0, "#ebedf0", "No contributions"⟩] : List Rec) ≠ [] ∧
    (calculate_statistics
      [⟨"2024-01-01", 0, "#ebedf0", "No contributions"⟩,
       ⟨"2024-01-02", 0, "#ebedf0", "No contributions"⟩]).map (fun s =>
        (s.streak, s.total_contributions, s.active_days, s.inactive_days)) =
      some (⟨0, none⟩, 0, 0, 2) :=
  ⟨by simp, all_zero_records_summary _ (by simp) (by decide)⟩

/-- Claim C7: when the key is not yet cached and the first fetch for it
succeeds, that first fetch performs the one and only upstream call for the
key: a second fetch with the identical `(username, from_date, to_date)`
triple returns the cached markup and makes no network round-trip. -/
theorem fetch_memoizes_key (up : GHKey → HttpResponse)
    (cache : List (GHKey × String)) (k : GHKey) (v : String)
    (hmiss : cacheLookup cache k = none)
    (hok : (fetch_github_data up cache k).1 = .ok v) :
    (fetch_github_data up cache k).2.2 = true ∧
    (fetch_github_data up (fetch_github_data up cache k).2.1 k).1 = .ok v ∧
    (fetch_github_data up (fetch_github_data up cache k).2.1 k).2.2 = false := by
  have hfind : cache.find? (fun p => decide (p.1 = k)) = none := by
    unfold cacheLookup at hmiss
    cases h : cache.find? (fun p => decide (p.1 = k)) with
    | none => rfl
    | some p => rw [h] at hmiss; simp at hmiss
  cases hresp : fetch_github_data_nocache (up k) with
  | error err =>
    have h1 : fetch_github_data up cache k = (.error err, cache, true) := by
      unfold fetch_github_data
      rw [hfind, hresp]
    rw [h1] at hok
    simp at hok
  | ok body =>
    have h1 : fetch_github_data up cache k =
        (.ok body, ((k, body) :: cache).take 100, true) := by
      unfold fetch_github_data
      rw [hfind, hresp]
    have hbv : body = v := by
      rw [h1] at hok
      simpa using hok
    subst hbv
    have htake : ((k, body) :: cache).take 100 = (k, body) :: cache.take 99 := rfl
    have h2a : (fetch_github_data up (((k, body) :: cache).take 100) k).1 = .ok body := by
      unfold fetch_github_data
      rw [htake, List.find?_cons_of_pos _ (by simp)]
    have h2b : (fetch_github_data up (((k, body) :: cache).take 100) k).2.2 = false := by
      unfold fetch_github_data
      rw [htake, List.find?_cons_of_pos _ (by simp)]
    refine ⟨by rw [h1], ?_, ?_⟩
    · rw [h1]
      exact h2a
    · rw [h1]
      exact h2b

theorem fetch_memoizes_key_witness :
    cacheLookup [] ("alice", "2024-01-01", "2024-12-31") = none ∧
    (fetch_github_data (fun _ => ⟨200, "markup"⟩) []
      ("alice", "2024-01-01", "2024-12-31")).1 = .ok "markup" ∧
    ((fetch_github_data (fun _ => ⟨200, "markup"⟩) []
        ("alice", "2024-01-01", "2024-12-31")).2.2 = true ∧
      (fetch_github_data (fun _ => ⟨200, "markup"⟩)
        (fetch_github_data (fun _ => ⟨200, "markup"⟩) []
          ("alice", "2024-01-01", "2024-12-31")).2.1
        ("alice", "2024-01-01", "2024-12-31")).1 = .ok "markup" ∧
      (fetch_github_data (fun _ => ⟨200, "markup"⟩)
        (fetch_github_data (fun _ => ⟨200, "markup"⟩) []
          ("alice", "2024-01-01", "2024-12-31")).2.1
        ("alice", "2024-01-01", "2024-12-31")).2.2 = false) :=
  ⟨rfl, rfl, fetch_memoizes_key _ _ _ _ rfl rfl⟩

/-- The scan `pyMaxBy` picks a member of maximal count, and (on a date-sorted list)
the earliest-dated among the maximal ones: the linear scan replaces the
best only on a strictly greater count, so the first maximal record wins. -/
theorem pyMaxBy_spec (l : List Rec) : ∀ a : Rec,
    (a :: l).Pairwise (fun x y => recDateLe x y = true) →
    pyMaxBy a l ∈ a :: l ∧
    (∀ r ∈ a :: l, r.contributions ≤ (pyMaxBy a l).contributions) ∧
    (∀ r ∈ a :: l, r.contributions = (pyMaxBy a l).contributions →
      recDateLe (pyMaxBy a l) r = true) := by
  induction l with
  | nil =>
    intro a _
    refine ⟨List.mem_cons_self a [], ?_, ?_⟩
    · intro r hr
      rcases List.mem_cons.mp hr with rfl | hr
      · exact le_refl _
      · simp at hr
    · intro r hr _
      rcases List.mem_cons.mp hr with rfl | hr
      · exact recDateLe_refl r
      · simp at hr
  | cons b l ih =>
    intro a hpw
    have hunf : pyMaxBy a (b :: l) =
        pyMaxBy (if b.contributions > a.contributions then b else a) l := rfl
    rcases List.pairwise_cons.mp hpw with ⟨ha, hpw2⟩
    rcases List.pairwise_cons.mp hpw2 with ⟨hb, hpwl⟩
    by_cases hba : b.contributions > a.contributions
    · have ihb := ih b hpw2
      rw [hunf, if_pos hba] at *
      refine ⟨List.mem_cons_of_mem a ihb.1, ?_, ?_⟩
      · intro r hr
        rcases List.mem_cons.mp hr with rfl | hr
        · have := ihb.2.1 b (List.mem_cons_self b l)
          omega
        · exact ihb.2.1 r hr
      · intro r hr heq
        rcases List.mem_cons.mp hr with rfl | hr
        · exfalso
          have := ihb.2.1 b (List.mem_cons_self b l)
          omega
        · exact ihb.2.2 r hr heq
    · have hpwal : (a :: l).Pairwise (fun x y => recDateLe x y = true) :=
        List.pairwise_cons.mpr ⟨fun x hx => ha x (List.mem_cons_of_mem b hx), hpwl⟩
      have iha := ih a hpwal
      rw [hunf, if_neg hba] at *
      have hmem : pyMaxBy a l ∈ a :: b :: l := by
        rcases List.mem_cons.mp iha.1 with h1 | h1
        · rw [h1]; exact List.mem_cons_self a (b :: l)
        · exact List.mem_cons_of_mem a (List.mem_cons_of_mem b h1)
      refine ⟨hmem, ?_, ?_⟩
      · intro r hr
        rcases List.mem_cons.mp hr with rfl | hr
        · exact iha.2.1 r (List.mem_cons_self r l)
        · rcases List.mem_cons.mp hr with rfl | hr
          · have := iha.2.1 a (List.mem_cons_self a l)
            omega
          · exact iha.2.1 r (List.mem_cons_of_mem a hr)
      · intro r hr heq
        rcases List.mem_cons.mp hr with rfl | hr
        · exact iha.2.2 r (List.mem_cons_self r l) heq
        · rcases List.mem_cons.mp hr with rfl | hr
          · have h1 := iha.2.1 a (List.mem_cons_self a l)
            have h2 : a.contributions = (pyMaxBy a l).contributions := by omega
            have h3 := iha.2.2 a (List.mem_cons_self a l) h2
            exact recDateLe_trans h3 (ha r (List.mem_cons_self r l))
          · exact iha.2.2 r (List.mem_cons_of_mem a hr) heq

/-- Claim C4: on a non-empty record sequence (taken in ascending-date
order, the invariant under which the calculator runs), the reported
`max_contributions_day` is a record of maximal count, and among the
records sharing that maximal count it is the earliest-dated (first)
one. -/
theorem max_day_first_maximal (l : List Rec) (hne : l ≠ [])
    (hsort : l.Pairwise (fun x y => recDateLe x y = true)) :
    ∃ m, (calculate_statistics l).map (fun s => s.max_contributions_day) = some m ∧
      m ∈ l ∧ (∀ r ∈ l, r.contributions ≤ m.contributions) ∧
      (∀ r ∈ l, r.contributions = m.contributions → recDateLe m r = true) := by
  match l, hne with
  | a :: rest, _ =>
    rcases pyMaxBy_spec rest a hsort with ⟨h1, h2, h3⟩
    exact ⟨pyMaxBy a rest, rfl, h1, h2, h3⟩

theorem max_day_first_maximal_witness :
    ([⟨"2024-01-01", 5, "#40c463", "5 contributions"⟩,
      ⟨"2024-01-02", 5, "#40c463", "5 contributions"⟩,
      ⟨"2024-01-03", 2, "#9be9a8", "2 contributions"⟩] : List Rec) ≠ [] ∧
    ([⟨"2024-01-01", 5, "#40c463", "5 contributions"⟩,
      ⟨"2024-01-02", 5, "#40c463", "5 contributions"⟩,
      ⟨"2024-01-03", 2, "#9be9a8", "2 contributions"⟩] : List Rec).Pairwise
        (fun x y => recDateLe x y = true) ∧
    ∃ m, (calculate_statistics
        [⟨"2024-01-01", 5, "#40c463", "5 contributions"⟩,
         ⟨"2024-01-02", 5, "#40c463", "5 contributions"⟩,
         ⟨"2024-01-03", 2, "#9be9a8", "2 contributions"⟩]).map
          (fun s => s.max_contributions_day) = some m ∧
      m ∈ ([⟨"2024-01-01", 5, "#40c463", "5 contributions"⟩,
            ⟨"2024-01-02", 5, "#40c463", "5 contributions"⟩,
            ⟨"2024-01-03", 2, "#9be9a8", "2 contributions"⟩] : List Rec) ∧
      (∀ r ∈ ([⟨"2024-01-01", 5, "#40c463", "5 contributions"⟩,
               ⟨"2024-01-02", 5, "#40c463", "5 contributions"⟩,
               ⟨"2024-01-03", 2, "#9be9a8", "2 contributions"⟩] : List Rec),
        r.contributions ≤ m.contributions) ∧
      (∀ r ∈ ([⟨"2024-01-01", 5, "#40c463", "5 contributions"⟩,
               ⟨"2024-01-02", 5, "#40c463", "5 contributions"⟩,
               ⟨"2024-01-03", 2, "#9be9a8", "2 contributions"⟩] : List Rec),
        r.contributions = m.contributions → recDateLe m r = true) :=
  ⟨by simp, by decide, max_day_first_maximal _ (by simp) (by decide)⟩

/-- Any record a successful `parseTd` step adds to the accumulator has a
date string that parses, and parses to a day not after `now` (the
future-date guard dropped everything else). -/
theorem parseTd_ok_dates (doc : Doc) (now : Date) (acc : List Rec) (td : Td)
    (acc2 : List Rec) (h : parseTd doc now acc td = .ok acc2)
    (hacc : ∀ r ∈ acc, ∃ d, strptimeDate r.date = some d ∧ dleB d now = true) :
    ∀ r ∈ acc2, ∃ d, strptimeDate r.date = some d ∧ dleB d now = true := by
  unfold parseTd at h
  cases hdd : td.dataDate with
  | none =>
    simp only [hdd] at h
    cases h
    exact hacc
  | some date =>
    simp only [hdd] at h
    by_cases hemp : date = ""
    · rw [if_pos hemp] at h
      cases h
      exact hacc
    · rw [if_neg hemp] at h
      cases hsp : strptimeDate date with
      | none =>
        simp only [hsp] at h
        cases h
      | some dateObj =>
        simp only [hsp] at h
        by_cases hfut : dltB now dateObj = true
        · rw [if_pos hfut] at h
          cases h
          exact hacc
        · rw [if_neg hfut] at h
          cases htt : doc.tooltips.find? (fun t => t.forAttr == td.idAttr) with
          | none =>
            simp only [htt] at h
            cases h
            exact hacc
          | some tooltip =>
            simp only [htt] at h
            cases hlv : (match td.dataLevel with
                        | none => some (0 : Int)
                        | some s => pyInt s) with
            | none =>
              simp only [hlv] at h
              cases h
            | some level =>
              simp only [hlv] at h
              cases hcc : CONTRIBUTION_COLORS level with
              | none =>
                simp only [hcc] at h
                cases h
              | some color =>
                simp only [hcc] at h
                cases h
                intro r hr
                rcases List.mem_append.mp hr with hr | hr
                · exact hacc r hr
                · have hre : r = ⟨date, (findCount (pyStrip tooltip.text).data).getD 0,
                      color, pyStrip tooltip.text⟩ := by
                    simpa using hr
                  rw [hre]
                  refine ⟨dateObj, hsp, ?_⟩
                  simpa [dltB] using hfut

/-- The accumulator invariant of `parseTd_ok_dates`, threaded through the
whole loop. -/
theorem parseTds_ok_dates (doc : Doc) (now : Date) :
    ∀ (tds : List Td) (acc out : List Rec),
    parseTds doc now acc tds = .ok out →
    (∀ r ∈ acc, ∃ d, strptimeDate r.date = some d ∧ dleB d now = true) →
    ∀ r ∈ out, ∃ d, strptimeDate r.date = some d ∧ dleB d now = true := by
  intro tds
  induction tds with
  | nil =>
    intro acc out h hacc
    cases h
    exact hacc
  | cons td rest ih =>
    intro acc out h hacc
    unfold parseTds at h
    cases hstep : parseTd doc now acc td with
    | error e =>
      simp only [hstep] at h
      cases h
    | ok acc2 =>
      simp only [hstep] at h
      exact ih acc2 out h (parseTd_ok_dates doc now acc td acc2 hstep hacc)

/-- Claim C5: every record the parser returns is dated at or before the
reference date `now`; calendar-day cells dated strictly after `now` never
appear in the output. -/
theorem parser_drops_future_dates (now : Date) (doc : Doc) (out : List Rec)
    (h : parse_contribution_data now doc = .ok out) :
    ∀ r ∈ out, ∃ d, strptimeDate r.date = some d ∧ dleB d now = true := by
  unfold parse_contribution_data at h
  cases hp : parseTds doc now [] doc.tds with
  | error e =>
    rw [hp] at h
    simp [Except.map] at h
  | ok recs =>
    rw [hp] at h
    simp only [Except.map, Except.ok.injEq] at h
    intro r hr
    rw [← h] at hr
    exact parseTds_ok_dates doc now doc.tds [] recs hp (by simp) r (mem_sortRecs.mp hr)

/-- A document with one past-dated and one future-dated cell. -/
def docFutureDate : Doc :=
  ⟨[⟨some "2024-01-01", some "a", none⟩, ⟨some "2099-01-01", some "b", none⟩],
   [⟨some "a", "3 contributions"⟩, ⟨some "b", "10 contributions"⟩]⟩

theorem parser_drops_future_dates_witness :
    parse_contribution_data ⟨2024, 6, 1⟩ docFutureDate =
      .ok [⟨"2024-01-01", 3, "#ebedf0", "3 contributions"⟩] ∧
    ∀ r ∈ ([⟨"2024-01-01", 3, "#ebedf0", "3 contributions"⟩] : List Rec),
      ∃ d, strptimeDate r.date = some d ∧ dleB d ⟨2024, 6, 1⟩ = true :=
  ⟨rfl, parser_drops_future_dates ⟨2024, 6, 1⟩ docFutureDate
    [⟨"2024-01-01", 3, "#ebedf0", "3 contributions"⟩] rfl⟩

/-- The part of claim C3 that holds: the parser's output is sorted
(non-strictly) ascending by date string. -/
theorem parser_output_sorted (now : Date) (doc : Doc) (out : List Rec)
    (h : parse_contribution_data now doc = .ok out) :
    out.Pairwise (fun x y => recDateLe x y = true) := by
  unfold parse_contribution_data at h
  cases hp : parseTds doc now [] doc.tds with
  | error e =>
    rw [hp] at h
    simp [Except.map] at h
  | ok recs =>
    rw [hp] at h
    simp only [Except.map, Except.ok.injEq] at h
    rw [← h]
    exact pairwise_sortRecs recs

/-- A document whose two cells appear in descending date order. -/
def docDescOrder : Doc :=
  ⟨[⟨some "2024-01-03", some "a", none⟩, ⟨some "2024-01-01", some "b", none⟩],
   [⟨some "a", "3 contributions"⟩, ⟨some "b", "1 contribution"⟩]⟩

theorem parser_output_sorted_witness :
    parse_contribution_data ⟨2024, 6, 1⟩ docDescOrder =
      .ok [⟨"2024-01-01", 1, "#ebedf0", "1 contribution"⟩,
           ⟨"2024-01-03", 3, "#ebedf0", "3 contributions"⟩] ∧
    ([⟨"2024-01-01", 1, "#ebedf0", "1 contribution"⟩,
      ⟨"2024-01-03", 3, "#ebedf0", "3 contributions"⟩] : List Rec).Pairwise
        (fun x y => recDateLe x y = true) :=
  ⟨rfl, parser_output_sorted ⟨2024, 6, 1⟩ docDescOrder
    [⟨"2024-01-01", 1, "#ebedf0", "1 contribution"⟩,
     ⟨"2024-01-03", 3, "#ebedf0", "3 contributions"⟩] rfl⟩

/-- A markup document with two calendar-day cells carrying the same
`data-date`: the source never deduplicates, so both survive. -/
def docDupDates : Doc :=
  ⟨[⟨some "2024-01-02", some "a", some "2"⟩, ⟨some "2024-01-02", some "b", none⟩],
   [⟨some "a", "5 contributions on January 2nd."⟩,
    ⟨some "b", "No contributions on January 2nd."⟩]⟩

/-- Counterexample to claim C3 as stated: the parser's output is *not*
always strictly increasing — a markup input whose cells repeat a
`data-date` yields two records with the same date. -/
theorem parser_unique_dates_counterexample :
    ¬ (∀ (now : Date) (doc : Doc) (out : List Rec),
        parse_contribution_data now doc = .ok out →
        (out.Pairwise (fun x y => recDateLe x y = true) ∧
         out.Pairwise (fun x y => x.date ≠ y.date))) := by
  intro h
  have h2 := (h ⟨2024, 6, 1⟩ docDupDates
      [⟨"2024-01-02", 5, "#40c463", "5 contributions on January 2nd."⟩,
       ⟨"2024-01-02", 0, "#ebedf0", "No contributions on January 2nd."⟩] rfl).2
  rcases List.pairwise_cons.mp h2 with ⟨hrel, _⟩
  exact hrel _ (List.mem_cons_self _ _) rfl

/-- Any `td` whose `data-date` is present, non-empty and rejected by
`strptime` makes the whole loop abort with an error. -/
theorem parseTds_error_of_bad_date (doc : Doc) (now : Date) :
    ∀ (tds : List Td) (acc : List Rec),
    (∃ td ∈ tds, ∃ s, td.dataDate = some s ∧ s ≠ "" ∧ strptimeDate s = none) →
    ∃ msg, parseTds doc now acc tds = .error msg := by
  intro tds
  induction tds with
  | nil =>
    intro acc h
    rcases h with ⟨td, htd, _⟩
    simp at htd
  | cons td0 rest ih =>
    intro acc h
    rcases h with ⟨td, htd, s, hds, hemp, hbad⟩
    rcases List.mem_cons.mp htd with rfl | hmem
    · have hstep : parseTd doc now acc td = .error "time data does not match format %Y-%m-%d" := by
        unfold parseTd
        simp only [hds]
        rw [if_neg hemp]
        simp only [hbad]
      exact ⟨_, by unfold parseTds; simp only [hstep]; rfl⟩
    · cases hstep : parseTd doc now acc td0 with
      | error e =>
        exact ⟨e, by unfold parseTds; simp only [hstep]⟩
      | ok acc2 =>
        rcases ih acc2 ⟨td, hmem, s, hds, hemp, hbad⟩ with ⟨msg, hmsg⟩
        exact ⟨msg, by unfold parseTds; simp only [hstep]; exact hmsg⟩

/-- The part of claim C10 that holds: a calendar-day cell whose
`data-date` is present, non-empty, and not a well-formed date makes the
parser raise (aborting the whole parse). -/
theorem malformed_date_aborts_parse (now : Date) (doc : Doc) (td : Td)
    (hmem : td ∈ doc.tds) (s : String) (hds : td.dataDate = some s)
    (hemp : s ≠ "") (hbad : strptimeDate s = none) :
    ∃ msg, parse_contribution_data now doc = .error msg := by
  rcases parseTds_error_of_bad_date doc now doc.tds [] ⟨td, hmem, s, hds, hemp, hbad⟩ with
    ⟨msg, hmsg⟩
  refine ⟨msg, ?_⟩
  unfold parse_contribution_data
  rw [hmsg]
  rfl

/-- A document with one cell whose `data-date` is present, non-empty and
not a well-formed date. -/
def docBadDate : Doc :=
  ⟨[⟨some "2024-13-99", some "a", none⟩], [⟨some "a", "4 contributions"⟩]⟩

theorem malformed_date_aborts_parse_witness :
    (⟨some "2024-13-99", some "a", none⟩ : Td) ∈ docBadDate.tds ∧
    (⟨some "2024-13-99", some "a", none⟩ : Td).dataDate = some "2024-13-99" ∧
    "2024-13-99" ≠ "" ∧
    strptimeDate "2024-13-99" = none ∧
    ∃ msg, parse_contribution_data ⟨2024, 6, 1⟩ docBadDate = .error msg :=
  ⟨by simp [docBadDate], rfl, by simp, rfl,
    malformed_date_aborts_parse ⟨2024, 6, 1⟩ docBadDate
      ⟨some "2024-13-99", some "a", none⟩ (by simp [docBadDate])
      "2024-13-99" rfl (by simp) rfl⟩

/-- A markup document with one calendar-day cell whose `data-date` is
present but the empty string: `if not date` in Python treats it exactly
like a missing attribute. -/
def docEmptyDate : Doc :=
  ⟨[⟨some "", some "a", none⟩], [⟨some "a", "4 contributions"⟩]⟩

/-- Counterexample to claim C10 as stated: a present-but-malformed
`data-date` does not always raise — the empty string is present and not a
well-formed date, yet the cell is silently skipped and the parse
succeeds. -/
theorem empty_date_skipped_counterexample :
    ¬ (∀ (now : Date) (doc : Doc) (td : Td), td ∈ doc.tds →
        ∀ s, td.dataDate = some s → strptimeDate s = none →
        ∃ msg, parse_contribution_data now doc = .error msg) := by
  intro h
  rcases h ⟨2024, 6, 1⟩ docEmptyDate ⟨some "", some "a", none⟩ (by simp [docEmptyDate])
      "" rfl rfl with ⟨msg, hmsg⟩
  rw [show parse_contribution_data ⟨2024, 6, 1⟩ docEmptyDate = .ok [] from rfl] at hmsg
  cases hmsg

end GhStats
